import Mathlib

/-!
Shallow embedding of `pathfinder/renderer/src/builder.rs` (the scene-build
stage of the pathfinder tile-based rasterizer) and proofs about its
orchestration, culling, packing and transform-preparation logic.

The file has two halves: definitions first (the embedding of the data model
and the operations of `builder.rs`, with external collaborators — the
`gpu_data` containers, the Tiler, the geometry library, the standard
library's unstable sort and the rayon scheduler — modelled from their
documented interfaces), then the theorems.
-/

set_option maxHeartbeats 1000000

namespace PathfinderBuilder

/-! ## Data model

`FillBatchPrimitive`, `AlphaTileBatchPrimitive`, `RenderCommand` and
`SharedBuffers` live in `gpu_data.rs`, which is not among the reviewed
sources; they are modelled here from the spec's data-model section. -/

/-- Modelled from the spec: one buffered fill span. Its contents are opaque
to the builder (only the Tiler writes and the GPU consumer reads them), so a
bare tag stands for the record. -/
abbrev FillBatchPrimitive := Nat

/-- Modelled from the spec: a tile coordinate, as fed to the z-buffer. -/
abbrev TileCoords := Nat × Nat

/-- Modelled from the spec: one alpha-tile coverage record. `builder.rs`
itself names the byte fields `tile_x_lo`, `tile_y_lo`, `tile_hi` and the
field `object_index`; `payload` stands for every remaining field of the
record (backdrop, tile index, ...), which the builder never touches. -/
structure AlphaTileBatchPrimitive where
  tile_x_lo : Nat
  tile_y_lo : Nat
  tile_hi : Nat
  object_index : Nat
  payload : Nat
deriving DecidableEq

/-- `pub const MAX_FILLS_PER_BATCH: u32 = 0x1000;` (must be a power of two). -/
def MAX_FILLS_PER_BATCH : Nat := 0x1000

/-- Modelled from the spec: the output command variants of `gpu_data.rs`. -/
inductive RenderCommand where
  | ClearMaskFramebuffer : RenderCommand
  | Fill : List FillBatchPrimitive → RenderCommand
  | SolidTile : List Nat → RenderCommand
  | AlphaTile : List AlphaTileBatchPrimitive → RenderCommand
deriving DecidableEq

/-- Modelled from the spec: the per-build shared containers. The fill and
alpha-tile containers are append-only sequences; the z-buffer state is kept
as the sequence of solid-coverage writes `(tile coordinate, object index)`
made during tiling, from which its queries are derived (`zOf`). -/
structure SharedBuffers where
  fills : List FillBatchPrimitive
  alpha_tiles : List AlphaTileBatchPrimitive
  z_writes : List (TileCoords × Nat)
deriving DecidableEq

/-- Join of an optional current maximum with one more index. -/
def zmax : Option Nat → Nat → Option Nat
  | none, i => some i
  | some m, i => some (max m i)

/-- Modelled from the spec: the z-buffer's per-tile state after a set of
solid-coverage writes — the greatest object index written at the
coordinate (the spec's tie-break: among competing fully-opaque objects the
numerically greatest object index wins, as an atomic max per tile slot);
`none` where no object solidly covers the tile. Write order is immaterial
(proved below), which is what makes the parallel mode's z-buffer
deterministic. -/
def zOf (ws : List (TileCoords × Nat)) (c : TileCoords) : Option Nat :=
  ws.foldl (fun acc w => if w.1 = c then zmax acc w.2 else acc) none

/-- Modelled from the spec: `z_buffer.test(coords, object_index)` — true
(visible) when the queried object index is at or above the topmost
fully-opaque coverage recorded at the coordinate, true trivially when no
solid coverage was recorded there. -/
def zTest (z : TileCoords → Option Nat) (c : TileCoords) (i : Nat) : Bool :=
  match z c with
  | some m => decide (m ≤ i)
  | none => true

/-- The external operations `builder.rs` calls whose implementations are
outside the reviewed sources, passed as parameters of the embedding:
`sortAlpha` models `slice::sort_unstable_by` keyed on `object_index`
(constrained, where a claim needs it, by `SortUnstableSpec` — its documented
contract: a sorted permutation, equal keys in unspecified order);
`build_solid_tiles` models `z_buffer.build_solid_tiles(0..object_count)` as
an arbitrary function of the z-buffer state and the object count;
`tile_coords` models `AlphaTileBatchPrimitive::tile_coords()`. -/
structure Externals where
  sortAlpha : List AlphaTileBatchPrimitive → List AlphaTileBatchPrimitive
  build_solid_tiles : (TileCoords → Option Nat) → Nat → List Nat
  tile_coords : AlphaTileBatchPrimitive → TileCoords

/-- Rust `!x` on a `u32`: bitwise complement within 32 bits. -/
def u32_not (x : Nat) : Nat := (2 ^ 32 - 1) ^^^ x

/-- Modelled from the spec: `fills.range_to_vec(a..b)` — the slice of the
fill container from index `a` (inclusive) to `b` (exclusive). -/
def range_to_vec (l : List FillBatchPrimitive) (a b : Nat) : List FillBatchPrimitive :=
  (l.drop a).take (b - a)

/-! ## Occlusion culling (`SceneBuilder::cull_alpha_tiles`) -/

/-- The in-place overwrite of an occluded record: the three coordinate
fields are set to the sentinel byte `0xff`, the rest of the record is kept. -/
def cullSentinel (t : AlphaTileBatchPrimitive) : AlphaTileBatchPrimitive :=
  { t with tile_x_lo := 0xff, tile_y_lo := 0xff, tile_hi := 0xff }

/-- What one iteration of the culling loop does to the record it reads:
keep it when the z-buffer test passes, overwrite it with the sentinel
otherwise. -/
def cullStep (test : TileCoords → Nat → Bool) (coords : AlphaTileBatchPrimitive → TileCoords)
    (t : AlphaTileBatchPrimitive) : AlphaTileBatchPrimitive :=
  if test (coords t) t.object_index then t else cullSentinel t

/-- One iteration of `for alpha_tile_index in 0..buffers.alpha_tiles.len()`:
read the record at the index; if the z-buffer test passes, continue;
otherwise write the sentinel-overwritten record back at the same index. -/
def cullIter (test : TileCoords → Nat → Bool) (coords : AlphaTileBatchPrimitive → TileCoords)
    (b : List AlphaTileBatchPrimitive) (i : Nat) : List AlphaTileBatchPrimitive :=
  match b[i]? with
  | some t => if test (coords t) t.object_index then b else b.set i (cullSentinel t)
  | none => b

/-- The whole culling loop over indices `0..len`. -/
def cullLoop (test : TileCoords → Nat → Bool) (coords : AlphaTileBatchPrimitive → TileCoords)
    (b : List AlphaTileBatchPrimitive) : List AlphaTileBatchPrimitive :=
  (List.range b.length).foldl (cullIter test coords) b

/-- `SceneBuilder::cull_alpha_tiles`: cull the alpha-tile container against
the z-buffer; the fill container and the z-buffer are untouched. -/
def cull_alpha_tiles (E : Externals) (buffers : SharedBuffers) : SharedBuffers :=
  { buffers with
    alpha_tiles := cullLoop (zTest (zOf buffers.z_writes)) E.tile_coords buffers.alpha_tiles }

/-! ## Command packing (`SceneBuilder::pack_alpha_tiles`) -/

/-- `SceneBuilder::pack_alpha_tiles`: drain the shared buffers into commands.
Returns the commands sent, in order, and the buffers as the method leaves
them. Mirrors the source: the solid tiles are built from the z-buffer for
the range `0..object_count`; if the fill count is not a multiple of
`MAX_FILLS_PER_BATCH`, one `Fill` command carries the tail from
`fill_count & !(MAX_FILLS_PER_BATCH - 1)` and the fill buffer is cleared;
a non-empty solid set becomes one `SolidTile` command; a non-empty
alpha-tile buffer is copied out, sorted with the unstable sort keyed on
`object_index`, emitted as one `AlphaTile` command, and cleared. -/
def pack_alpha_tiles (E : Externals) (object_count : Nat) (buffers : SharedBuffers) :
    List RenderCommand × SharedBuffers :=
  let fill_count := buffers.fills.length
  let solid_tiles := E.build_solid_tiles (zOf buffers.z_writes) object_count
  let fillPart :=
    if fill_count % MAX_FILLS_PER_BATCH ≠ 0 then
      let fill_start := fill_count &&& u32_not (MAX_FILLS_PER_BATCH - 1)
      ([RenderCommand.Fill (range_to_vec buffers.fills fill_start fill_count)],
        ([] : List FillBatchPrimitive))
    else ([], buffers.fills)
  let solidCmds := if solid_tiles.isEmpty then [] else [RenderCommand.SolidTile solid_tiles]
  let alphaPart :=
    if buffers.alpha_tiles.isEmpty then ([], buffers.alpha_tiles)
    else ([RenderCommand.AlphaTile (E.sortAlpha buffers.alpha_tiles)],
      ([] : List AlphaTileBatchPrimitive))
  (fillPart.1 ++ solidCmds ++ alphaPart.1,
    { buffers with fills := fillPart.2, alpha_tiles := alphaPart.2 })

/-! ## Per-object building and the two build modes -/

/-- Modelled from the spec: what tiling one object contributes — the fill
commands the Tiler emits directly to the listener mid-build when its batch
threshold is reached, and the appends it makes into the three shared
containers. The Tiler is an external collaborator; a build is quantified
over these contributions. -/
structure ObjectWork where
  cmds : List (List FillBatchPrimitive)
  fills : List FillBatchPrimitive
  alphas : List AlphaTileBatchPrimitive
  solids : List (TileCoords × Nat)
deriving DecidableEq

instance : Inhabited ObjectWork := ⟨⟨[], [], [], []⟩⟩

/-- The record of one `build_object` call: the 16-bit tile-object identifier
handed to the Tiler (`object_index as u16`), the commands the Tiler emitted,
and the buffer appends it made. -/
structure TilerRun where
  object_id : Nat
  emitted : List RenderCommand
  work : ObjectWork
deriving DecidableEq

/-- `build_object`: look the object up in the scene and run its Tiler,
constructed with the object index narrowed to a `u16` — `object_index as
u16` is reduction modulo `2^16`, with no bounds check anywhere in the
builder. -/
def build_object (object_index : Nat) (scene : List ObjectWork) : TilerRun :=
  let w := scene.getD object_index default
  { object_id := object_index % 2 ^ 16,
    emitted := w.cmds.map RenderCommand.Fill,
    work := w }

/-- The sequential loop `for object_index in 0..object_count`. -/
def seqRuns (scene : List ObjectWork) : List TilerRun :=
  (List.range scene.length).map (fun i => build_object i scene)

/-- The shared buffers at the barrier after a sequential build: each
object's appends land in index order. -/
def seqBuffers (scene : List ObjectWork) : SharedBuffers :=
  { fills := ((seqRuns scene).map (fun r => r.work.fills)).flatten,
    alpha_tiles := ((seqRuns scene).map (fun r => r.work.alphas)).flatten,
    z_writes := ((seqRuns scene).map (fun r => r.work.solids)).flatten }

/-- The single-threaded tail of both build modes: cull, then pack. -/
def finishBuild (E : Externals) (object_count : Nat) (buffers : SharedBuffers) :
    List RenderCommand × SharedBuffers :=
  pack_alpha_tiles E object_count (cull_alpha_tiles E buffers)

/-- `SceneBuilder::build_sequentially`: emit `ClearMaskFramebuffer`, build
every object in index order (their mid-build commands reach the listener in
that order), then cull and pack. Returns the full command stream and the
final buffers. -/
def build_sequentially (E : Externals) (scene : List ObjectWork) :
    List RenderCommand × SharedBuffers :=
  let r := finishBuild E scene.length (seqBuffers scene)
  (RenderCommand.ClearMaskFramebuffer :: ((seqRuns scene).map TilerRun.emitted).flatten ++ r.1,
    r.2)

/-- `r` is one of the orders in which concurrent workers, each appending its
own queue in order, can interleave into a shared sequence: repeatedly some
queue's head is popped. -/
inductive Interleave {α : Type} : List (List α) → List α → Prop where
  | nil (qss : List (List α)) (h : ∀ q ∈ qss, q = []) : Interleave qss []
  | step (pre : List (List α)) (x : α) (rest : List α) (post : List (List α)) (r : List α)
      (h : Interleave (pre ++ rest :: post) r) :
      Interleave (pre ++ (x :: rest) :: post) (x :: r)

/-- Modelled from the spec: one possible parallel execution of the rayon
fan-out `(0..object_count).into_par_iter().for_each(...)` — the workers'
appends into each shared container, and their mid-build commands into the
listener, arrive in some interleaving that preserves each object's own
order. (Each container's interleaving is quantified separately, which
over-approximates the schedules a single global execution can realize;
every guarantee proved below holds for all of them, and every concrete
schedule exhibited below is realizable.) -/
structure Schedule (scene : List ObjectWork) where
  parFills : List FillBatchPrimitive
  parAlphas : List AlphaTileBatchPrimitive
  parZ : List (TileCoords × Nat)
  parCmds : List RenderCommand
  fills_ok : Interleave (scene.map ObjectWork.fills) parFills
  alphas_ok : Interleave (scene.map ObjectWork.alphas) parAlphas
  z_ok : Interleave (scene.map ObjectWork.solids) parZ
  cmds_ok : Interleave (scene.map (fun w => w.cmds.map RenderCommand.Fill)) parCmds

/-- `SceneBuilder::build_in_parallel` under the schedule `s`: emit
`ClearMaskFramebuffer`, fan the objects out (their appends and mid-build
commands arrive as `s` interleaved them), join, then cull and pack. -/
def build_in_parallel (E : Externals) (scene : List ObjectWork) (s : Schedule scene) :
    List RenderCommand × SharedBuffers :=
  let buffers : SharedBuffers := ⟨s.parFills, s.parAlphas, s.parZ⟩
  let r := finishBuild E scene.length buffers
  (RenderCommand.ClearMaskFramebuffer :: s.parCmds ++ r.1, r.2)

/-! ## Observations on command streams -/

def isFillCmd : RenderCommand → Bool
  | RenderCommand.Fill _ => true
  | _ => false

def isSolidCmd : RenderCommand → Bool
  | RenderCommand.SolidTile _ => true
  | _ => false

def isAlphaCmd : RenderCommand → Bool
  | RenderCommand.AlphaTile _ => true
  | _ => false

def isClearCmd : RenderCommand → Bool
  | RenderCommand.ClearMaskFramebuffer => true
  | _ => false

/-- Drop the head of the list when it satisfies `p`. -/
def consumeOne (p : RenderCommand → Bool) : List RenderCommand → List RenderCommand
  | c :: rest => if p c then rest else c :: rest
  | [] => []

/-- Recognizes exactly the streams of shape: at most one fill command, then
at most one solid-tile command, then at most one alpha-tile command. -/
def packShape (l : List RenderCommand) : Bool :=
  (consumeOne isAlphaCmd (consumeOne isSolidCmd (consumeOne isFillCmd l))).isEmpty

/-- The payloads of the fill commands of a stream, in order. -/
def fillBatches (l : List RenderCommand) : List (List FillBatchPrimitive) :=
  l.filterMap fun c => match c with
    | RenderCommand.Fill fs => some fs
    | _ => none

/-- The payloads of the solid-tile commands of a stream, in order. -/
def solidBatches (l : List RenderCommand) : List (List Nat) :=
  l.filterMap fun c => match c with
    | RenderCommand.SolidTile ts => some ts
    | _ => none

/-- The payloads of the alpha-tile commands of a stream, in order. -/
def alphaBatches (l : List RenderCommand) : List (List AlphaTileBatchPrimitive) :=
  l.filterMap fun c => match c with
    | RenderCommand.AlphaTile ts => some ts
    | _ => none

/-- How many `ClearMaskFramebuffer` commands a stream holds. -/
def countClear (l : List RenderCommand) : Nat :=
  l.countP isClearCmd

/-- A stream with every alpha-tile batch replaced by its canonical
(stable, by-object-index) sort — the comparison the spec's equivalence
claim is stated modulo. -/
def sortAlphaBatchesInStream (l : List RenderCommand) : List RenderCommand :=
  l.map fun c => match c with
    | RenderCommand.AlphaTile ts => RenderCommand.AlphaTile (ts.insertionSort
        (fun a b => a.object_index ≤ b.object_index))
    | c => c

/-! ## The contract of the unstable sort -/

/-- The ordering the source's comparator induces:
`tile_a.object_index.cmp(&tile_b.object_index)` ≤. -/
def RIdx (a b : AlphaTileBatchPrimitive) : Prop := a.object_index ≤ b.object_index

instance : DecidableRel RIdx := fun a b => Nat.decLe a.object_index b.object_index

instance : IsTotal AlphaTileBatchPrimitive RIdx :=
  ⟨fun a b => Nat.le_total a.object_index b.object_index⟩

instance : IsTrans AlphaTileBatchPrimitive RIdx :=
  ⟨fun _ _ _ hab hbc => Nat.le_trans hab hbc⟩

/-- The documented contract of `slice::sort_unstable_by` with the source's
comparator: the result is a permutation of the input, sorted by
`object_index`; nothing is promised about the relative order of equal
keys. Every admissible implementation satisfies this and nothing more. -/
def SortUnstableSpec (f : List AlphaTileBatchPrimitive → List AlphaTileBatchPrimitive) : Prop :=
  ∀ l, (f l).Perm l ∧ (f l).Sorted RIdx

/-- A canonical admissible implementation: the stable insertion sort keyed
on `object_index`. -/
def sortByObjectIndex (l : List AlphaTileBatchPrimitive) : List AlphaTileBatchPrimitive :=
  l.insertionSort RIdx

/-- An ordering that refines the by-index key order but breaks ties by
*descending* `payload`: sorting with it is also admissible for
`sort_unstable_by`, yet reverses the buffer order of equal-index records. -/
def RAnti (a b : AlphaTileBatchPrimitive) : Prop :=
  a.object_index < b.object_index ∨ (a.object_index = b.object_index ∧ b.payload ≤ a.payload)

instance : DecidableRel RAnti := fun a b =>
  inferInstanceAs (Decidable (a.object_index < b.object_index ∨
    (a.object_index = b.object_index ∧ b.payload ≤ a.payload)))

instance : IsTotal AlphaTileBatchPrimitive RAnti := by
  constructor
  intro a b
  unfold RAnti
  omega

instance : IsTrans AlphaTileBatchPrimitive RAnti := by
  constructor
  intro a b c hab hbc
  unfold RAnti at *
  omega

/-- An anti-stable admissible implementation of the unstable sort. -/
def antiSortByObjectIndex (l : List AlphaTileBatchPrimitive) : List AlphaTileBatchPrimitive :=
  l.insertionSort RAnti

/-! ## Concrete instantiations used by witnesses and counterexamples -/

/-- A concrete instantiation of the externals: the canonical sort, a
z-buffer query producing no solid tiles, a constant tile coordinate. -/
def E0 : Externals :=
  { sortAlpha := sortByObjectIndex,
    build_solid_tiles := fun _ _ => [],
    tile_coords := fun _ => (0, 0) }

/-- The externals with the anti-stable (still contract-conforming) sort. -/
def E1 : Externals :=
  { sortAlpha := antiSortByObjectIndex,
    build_solid_tiles := fun _ _ => [],
    tile_coords := fun _ => (0, 0) }

/-- Two alpha tiles of the same object (index 0), distinguished by their
payloads. -/
def tPayload0 : AlphaTileBatchPrimitive := ⟨0, 0, 0, 0, 0⟩

def tPayload1 : AlphaTileBatchPrimitive := ⟨0, 0, 0, 0, 1⟩

/-- A two-object scene whose objects contribute one fill span each and
nothing else. -/
def scene0 : List ObjectWork :=
  [{ cmds := [], fills := [0], alphas := [], solids := [] },
   { cmds := [], fills := [1], alphas := [], solids := [] }]

/-- The parallel schedule for `scene0` in which object 1's fill append lands
before object 0's (rayon gives the two objects to two workers and makes no
ordering promise between them). -/
def schedule10 : Schedule scene0 :=
  { parFills := [1, 0],
    parAlphas := [],
    parZ := [],
    parCmds := [],
    fills_ok := by
      exact show Interleave [[0], [1]] [1, 0] from
        Interleave.step [[0]] 1 [] [] [0]
          (Interleave.step [] 0 [] [[]] []
            (Interleave.nil [[], []] (by decide)))
    alphas_ok := Interleave.nil _ (by decide)
    z_ok := Interleave.nil _ (by decide)
    cmds_ok := Interleave.nil _ (by decide) }

/-- The in-order schedule for `scene0` (the parallel run that happens to
finish object 0 first). -/
def schedule01 : Schedule scene0 :=
  { parFills := [0, 1],
    parAlphas := [],
    parZ := [],
    parCmds := [],
    fills_ok := by
      exact show Interleave [[0], [1]] [0, 1] from
        Interleave.step [] 0 [] [[1]] [1]
          (Interleave.step [[]] 1 [] [] []
            (Interleave.nil [[], []] (by decide)))
    alphas_ok := Interleave.nil _ (by decide)
    z_ok := Interleave.nil _ (by decide)
    cmds_ok := Interleave.nil _ (by decide) }

/-! ## Geometry and transform preparation (`RenderTransform::prepare`)

The geometry primitives (`pathfinder_geometry`) are an external crate; the
spec lists their interface. Points, rectangles and matrices are modelled
concretely over `ℚ` (exact scalars in place of `f32`); the 3D polygon
clipper and the 4×4 matrix inverse, whose internals the spec leaves
external, are parameters (`GeomExternals`). -/

/-- Modelled from the spec: a 2D point (`Point2DF32`). -/
structure Point2DF32 where
  x : ℚ
  y : ℚ
deriving DecidableEq

/-- Modelled from the spec: a 3D homogeneous point (`Point3DF32`). -/
structure Point3DF32 where
  x : ℚ
  y : ℚ
  z : ℚ
  w : ℚ
deriving DecidableEq

instance : Inhabited Point3DF32 := ⟨⟨0, 0, 0, 0⟩⟩

/-- Modelled from the spec: lift a 2D point to a 3D homogeneous point. -/
def Point2DF32.to_3d (p : Point2DF32) : Point3DF32 := ⟨p.x, p.y, 0, 1⟩

/-- Modelled from the spec: drop a 3D point to 2D. -/
def Point3DF32.to_2d (p : Point3DF32) : Point2DF32 := ⟨p.x, p.y⟩

/-- Modelled from the spec: the perspective divide — scale the point by the
reciprocal of its homogeneous component. -/
def Point3DF32.perspective_divide (p : Point3DF32) : Point3DF32 :=
  ⟨p.x * p.w⁻¹, p.y * p.w⁻¹, p.z * p.w⁻¹, p.w * p.w⁻¹⟩

/-- Componentwise sum. -/
def Point3DF32.add (p q : Point3DF32) : Point3DF32 :=
  ⟨p.x + q.x, p.y + q.y, p.z + q.z, p.w + q.w⟩

/-- Scale every component. -/
def Point3DF32.scaled (p : Point3DF32) (k : ℚ) : Point3DF32 :=
  ⟨p.x * k, p.y * k, p.z * k, p.w * k⟩

/-- Modelled from the spec: an axis-aligned rectangle (`RectF32`) with its
four corners. -/
structure RectF32 where
  origin : Point2DF32
  size : Point2DF32
deriving DecidableEq

def RectF32.upper_right (r : RectF32) : Point2DF32 := ⟨r.origin.x + r.size.x, r.origin.y⟩

def RectF32.lower_right (r : RectF32) : Point2DF32 :=
  ⟨r.origin.x + r.size.x, r.origin.y + r.size.y⟩

def RectF32.lower_left (r : RectF32) : Point2DF32 := ⟨r.origin.x, r.origin.y + r.size.y⟩

/-- Modelled from the spec: a 2D affine transform (`Transform2DF32`): a 2×2
matrix and a translation vector. -/
structure Transform2DF32 where
  m11 : ℚ
  m12 : ℚ
  m21 : ℚ
  m22 : ℚ
  vx : ℚ
  vy : ℚ
deriving DecidableEq

/-- `Transform2DF32::default()`: the identity transform. -/
def Transform2DF32.identity : Transform2DF32 := ⟨1, 0, 0, 1, 0, 0⟩

/-- Modelled from the spec: the geometry library's identity test —
comparison with the identity transform. -/
def Transform2DF32.is_identity (t : Transform2DF32) : Bool :=
  decide (t = Transform2DF32.identity)

/-- Modelled from the spec: a 4×4 matrix (`Transform3DF32`) as its four
columns; applying it to a point combines the columns weighted by the
point's components. -/
structure Transform3DF32 where
  c0 : Point3DF32
  c1 : Point3DF32
  c2 : Point3DF32
  c3 : Point3DF32
deriving DecidableEq

def Transform3DF32.transform_point (t : Transform3DF32) (p : Point3DF32) : Point3DF32 :=
  ((t.c0.scaled p.x).add (t.c1.scaled p.y)).add ((t.c2.scaled p.z).add (t.c3.scaled p.w))

/-- Modelled from the spec: a perspective transform; the builder uses only
its 4×4 matrix. -/
structure Perspective where
  transform : Transform3DF32
deriving DecidableEq

/-- The two geometry operations whose internals stay external: the convex
3D polygon clipper (`PolygonClipper3D::new(points).clip()`) and the 4×4
matrix inverse (`transform.inverse()`). -/
structure GeomExternals where
  clip : List Point3DF32 → List Point3DF32
  inverse : Transform3DF32 → Transform3DF32

/-- Modelled from the spec: barrel-distortion coefficients, carried through
unchanged. -/
structure BarrelDistortionCoefficients where
  k0 : ℚ
  k1 : ℚ
deriving DecidableEq

/-- `enum RenderTransform`. -/
inductive RenderTransform where
  | Transform2D : Transform2DF32 → RenderTransform
  | Perspective : Perspective → RenderTransform
deriving DecidableEq

/-- `enum PreparedRenderTransform`. -/
inductive PreparedRenderTransform where
  | None : PreparedRenderTransform
  | Transform2D : Transform2DF32 → PreparedRenderTransform
  | Perspective : Perspective → List Point2DF32 → List Point3DF32 → PreparedRenderTransform
deriving DecidableEq

/-- The clip polygon a prepared transform carries (empty for the 2D
variants, which carry none). -/
def PreparedRenderTransform.clipPolygonOf : PreparedRenderTransform → List Point2DF32
  | PreparedRenderTransform.Perspective _ cp _ => cp
  | _ => []

/-- `RenderTransform::prepare`, following the source line by line: the 2D
variant returns early (`None` for the identity, the matrix unchanged
otherwise); the perspective variant lifts the four corners of the bounding
rectangle (origin, upper-right, lower-right, lower-left) to 3D, transforms
them, keeps their perspective division as the quad, clips the (undivided)
transformed corners, perspective-divides each clipped vertex, and maps each
through the inverse transform, a second divide and the drop to 2D to form
the clip polygon. -/
def RenderTransform.prepare (G : GeomExternals) (rt : RenderTransform) (bounds : RectF32) :
    PreparedRenderTransform :=
  match rt with
  | RenderTransform.Transform2D t =>
    if t.is_identity then PreparedRenderTransform.None
    else PreparedRenderTransform.Transform2D t
  | RenderTransform.Perspective perspective =>
    let points := [bounds.origin.to_3d, bounds.upper_right.to_3d,
      bounds.lower_right.to_3d, bounds.lower_left.to_3d]
    let points := points.map perspective.transform.transform_point
    let quad := points.map Point3DF32.perspective_divide
    let points := G.clip points
    let points := points.map Point3DF32.perspective_divide
    let inverse_transform := G.inverse perspective.transform
    let clip_polygon := points.map (fun point =>
      ((inverse_transform.transform_point point).perspective_divide).to_2d)
    PreparedRenderTransform.Perspective perspective clip_polygon quad

/-- `struct RenderOptions`. -/
structure RenderOptions where
  transform : RenderTransform
  dilation : Point2DF32
  barrel_distortion : Option BarrelDistortionCoefficients
  subpixel_aa_enabled : Bool

/-- `struct PreparedRenderOptions`. -/
structure PreparedRenderOptions where
  transform : PreparedRenderTransform
  dilation : Point2DF32
  barrel_distortion : Option BarrelDistortionCoefficients
  subpixel_aa_enabled : Bool

/-- `RenderOptions::prepare`: prepare the transform, copy the rest through. -/
def RenderOptions.prepare (G : GeomExternals) (o : RenderOptions) (bounds : RectF32) :
    PreparedRenderOptions :=
  { transform := o.transform.prepare G bounds,
    dilation := o.dilation,
    barrel_distortion := o.barrel_distortion,
    subpixel_aa_enabled := o.subpixel_aa_enabled }

/-- `PreparedRenderOptions::quad`: the stored quad for the perspective
variant, four default (all-zero) points otherwise. -/
def PreparedRenderOptions.quad (o : PreparedRenderOptions) : List Point3DF32 :=
  match o.transform with
  | PreparedRenderTransform.Perspective _ _ quad => quad
  | _ => List.replicate 4 (default : Point3DF32)

/-- `PreparedRenderTransform::is_2d`. -/
def PreparedRenderTransform.is_2d : PreparedRenderTransform → Bool
  | PreparedRenderTransform.Transform2D _ => true
  | _ => false

/-- A concrete geometry instantiation: the clipper keeps the polygon, the
inverse is the identity operation. -/
def G0 : GeomExternals := ⟨fun l => l, fun t => t⟩

/-- A geometry instantiation whose clipper rejects everything (bounding
rectangle entirely outside the view volume). -/
def Gout : GeomExternals := ⟨fun _ => [], fun t => t⟩

/-- A concrete non-identity 2D transform. -/
def t2scale : Transform2DF32 := ⟨2, 0, 0, 1, 0, 0⟩

/-- The identity 4×4 matrix, as a concrete perspective input. -/
def id3 : Transform3DF32 := ⟨⟨1, 0, 0, 0⟩, ⟨0, 1, 0, 0⟩, ⟨0, 0, 1, 0⟩, ⟨0, 0, 0, 1⟩⟩

def persp0 : Perspective := ⟨id3⟩

def rect0 : RectF32 := ⟨⟨0, 0⟩, ⟨1, 1⟩⟩

/-! ## Helper lemmas -/

/-- An interleaving is a permutation of the concatenation of the queues. -/
theorem interleave_perm {α : Type} {qss : List (List α)} {r : List α}
    (h : Interleave qss r) : r.Perm qss.flatten := by
  induction h with
  | nil qss h =>
    have e : qss.flatten = [] := List.flatten_eq_nil_iff.mpr h
    rw [e]
  | step pre x rest post r _ ih =>
    have e : (pre ++ (x :: rest) :: post).flatten
        = pre.flatten ++ x :: (rest ++ post.flatten) := by
      simp [List.flatten_append]
    have e2 : (pre ++ rest :: post).flatten = pre.flatten ++ (rest ++ post.flatten) := by
      simp [List.flatten_append]
    have ih' : r.Perm (pre.flatten ++ (rest ++ post.flatten)) := e2 ▸ ih
    rw [e]
    exact (ih'.cons x).trans List.perm_middle.symm

/-- The derived z-buffer state does not depend on the order of the solid
coverage writes: recording is an atomic max per tile. -/
theorem zOf_perm {ws₁ ws₂ : List (TileCoords × Nat)} (h : ws₁.Perm ws₂) :
    zOf ws₁ = zOf ws₂ := by
  funext c
  refine h.foldl_eq' ?_ none
  intro x _ y _ z
  by_cases hx : x.1 = c <;> by_cases hy : y.1 = c <;>
    simp [hx, hy, zmax]
  cases z with
  | none => simp [zmax, Nat.max_comm]
  | some m => simp [zmax, Nat.max_assoc, Nat.max_comm, Nat.max_left_comm]

/-- Reading at the index right after a known prefix. -/
theorem getElem?_append_len {α : Type} (pre : List α) (x : α) (suf : List α) :
    (pre ++ x :: suf)[pre.length]? = some x := by
  induction pre with
  | nil => simp
  | cons a pre ih => simpa using ih

/-- Writing at the index right after a known prefix. -/
theorem set_append_len {α : Type} (pre : List α) (x v : α) (suf : List α) :
    (pre ++ x :: suf).set pre.length v = pre ++ v :: suf := by
  induction pre with
  | nil => simp
  | cons a pre ih => simp [ih]

/-- The culling loop is the pointwise `cullStep` map: iteration `i` reads
index `i` of the current buffer — untouched by the earlier iterations,
which only wrote indices below `i` — and writes index `i`. -/
theorem cullLoop_eq_map (test : TileCoords → Nat → Bool)
    (coords : AlphaTileBatchPrimitive → TileCoords) (b : List AlphaTileBatchPrimitive) :
    cullLoop test coords b = b.map (cullStep test coords) := by
  have aux : ∀ (suf pre : List AlphaTileBatchPrimitive),
      (List.range' pre.length suf.length).foldl (cullIter test coords) (pre ++ suf)
        = pre ++ suf.map (cullStep test coords) := by
    intro suf
    induction suf with
    | nil => intro pre; simp
    | cons t rest ih =>
      intro pre
      rw [List.length_cons, List.range'_succ, List.foldl_cons]
      have hiter : cullIter test coords (pre ++ t :: rest) pre.length
          = pre ++ cullStep test coords t :: rest := by
        unfold cullIter cullStep
        rw [getElem?_append_len]
        by_cases htest : test (coords t) t.object_index
        · simp [htest]
        · simp [htest, set_append_len]
      rw [hiter]
      have h := ih (pre ++ [cullStep test coords t])
      rw [List.length_append] at h
      simpa [List.append_assoc] using h
  have h := aux b []
  simpa [cullLoop, List.range_eq_range'] using h

/-- The tail offset computed by the fill pack: for a `u32` fill count,
`fill_count & !(MAX_FILLS_PER_BATCH - 1)` is the count rounded down to a
multiple of `MAX_FILLS_PER_BATCH` — the largest batch-aligned offset not
exceeding the count. -/
theorem fill_start_eq (N : Nat) (h : N < 2 ^ 32) :
    N &&& u32_not (MAX_FILLS_PER_BATCH - 1) = N - N % MAX_FILLS_PER_BATCH := by
  have hmask : u32_not (MAX_FILLS_PER_BATCH - 1) = 0xFFFFF000 := by decide
  have hrhs : N - N % MAX_FILLS_PER_BATCH = (N >>> 12) <<< 12 := by
    rw [Nat.shiftLeft_eq, Nat.shiftRight_eq_div_pow]
    have h1 : (2 : Nat) ^ 12 = 4096 := by norm_num
    rw [h1]
    unfold MAX_FILLS_PER_BATCH
    omega
  rw [hmask, hrhs]
  apply Nat.eq_of_testBit_eq
  intro j
  rw [Nat.testBit_and, Nat.testBit_shiftLeft, Nat.testBit_shiftRight]
  rcases lt_or_ge j 32 with hj | hj
  · rcases lt_or_ge j 12 with hj12 | hj12
    · have hm : Nat.testBit 0xFFFFF000 j = false := by
        interval_cases j <;> decide
      have hge : decide (j ≥ 12) = false := by
        simp
        omega
      rw [hm, hge]
      simp
    · have hm : Nat.testBit 0xFFFFF000 j = true := by
        interval_cases j <;> decide
      have h12 : 12 + (j - 12) = j := by omega
      have hge : decide (j ≥ 12) = true := by
        simp
        omega
      rw [hm, hge, h12]
      simp
  · have hpow : (2 : Nat) ^ 32 ≤ 2 ^ j := Nat.pow_le_pow_right (by norm_num) hj
    have hn : N.testBit j = false := Nat.testBit_eq_false_of_lt (lt_of_lt_of_le h hpow)
    have hm : Nat.testBit 0xFFFFF000 j = false :=
      Nat.testBit_eq_false_of_lt (lt_of_lt_of_le (by norm_num) hpow)
    have h12 : 12 + (j - 12) = j := by omega
    rw [hm, h12, hn]
    simp

/-- The canonical stable sort satisfies the unstable sort's contract. -/
theorem sortByObjectIndex_spec : SortUnstableSpec sortByObjectIndex := by
  intro l
  exact ⟨List.perm_insertionSort RIdx l, List.sorted_insertionSort RIdx l⟩

/-- The anti-stable sort also satisfies the unstable sort's contract: it
yields a permutation sorted by `object_index` (its ordering refines the
key order). -/
theorem antiSortByObjectIndex_spec : SortUnstableSpec antiSortByObjectIndex := by
  intro l
  refine ⟨List.perm_insertionSort RAnti l, ?_⟩
  have hs : (l.insertionSort RAnti).Pairwise RAnti := List.sorted_insertionSort RAnti l
  refine hs.imp ?_
  intro a b hab
  unfold RAnti at hab
  unfold RIdx
  omega

/-- Indexing `0..l.length` through `getD` retraverses the list. -/
theorem map_getD_range {α β : Type} [Inhabited α] (l : List α) (f : α → β) :
    (List.range l.length).map (fun i => f (l.getD i default)) = l.map f := by
  apply List.ext_getElem
  · simp
  · intro i h1 h2
    simp [List.getD_eq_getElem?_getD, List.getElem?_eq_getElem, List.length_map] at h2 ⊢
    rw [List.getElem?_eq_getElem h2]
    rfl

/-- The per-object fill appends of the sequential loop, in index order. -/
theorem seqRuns_fills (scene : List ObjectWork) :
    (seqRuns scene).map (fun r => r.work.fills) = scene.map ObjectWork.fills := by
  unfold seqRuns build_object
  rw [List.map_map]
  exact map_getD_range scene ObjectWork.fills

theorem seqRuns_alphas (scene : List ObjectWork) :
    (seqRuns scene).map (fun r => r.work.alphas) = scene.map ObjectWork.alphas := by
  unfold seqRuns build_object
  rw [List.map_map]
  exact map_getD_range scene ObjectWork.alphas

theorem seqRuns_solids (scene : List ObjectWork) :
    (seqRuns scene).map (fun r => r.work.solids) = scene.map ObjectWork.solids := by
  unfold seqRuns build_object
  rw [List.map_map]
  exact map_getD_range scene ObjectWork.solids

theorem seqRuns_emitted (scene : List ObjectWork) :
    (seqRuns scene).map TilerRun.emitted
      = scene.map (fun w => w.cmds.map RenderCommand.Fill) := by
  unfold seqRuns build_object
  rw [List.map_map]
  exact map_getD_range scene (fun w => w.cmds.map RenderCommand.Fill)

/-- The sequential barrier state, written over the scene directly. -/
theorem seqBuffers_eq (scene : List ObjectWork) :
    seqBuffers scene =
      { fills := (scene.map ObjectWork.fills).flatten,
        alpha_tiles := (scene.map ObjectWork.alphas).flatten,
        z_writes := (scene.map ObjectWork.solids).flatten } := by
  unfold seqBuffers
  rw [seqRuns_fills, seqRuns_alphas, seqRuns_solids]

/-- The command list `pack_alpha_tiles` emits, as the three optional
batches in their fixed order. -/
theorem pack_commands_eq (E : Externals) (n : Nat) (buffers : SharedBuffers) :
    (pack_alpha_tiles E n buffers).1 =
      (if buffers.fills.length % MAX_FILLS_PER_BATCH ≠ 0 then
        [RenderCommand.Fill (range_to_vec buffers.fills
          (buffers.fills.length &&& u32_not (MAX_FILLS_PER_BATCH - 1)) buffers.fills.length)]
       else []) ++
      (if (E.build_solid_tiles (zOf buffers.z_writes) n).isEmpty then []
       else [RenderCommand.SolidTile (E.build_solid_tiles (zOf buffers.z_writes) n)]) ++
      (if buffers.alpha_tiles.isEmpty then []
       else [RenderCommand.AlphaTile (E.sortAlpha buffers.alpha_tiles)]) := by
  unfold pack_alpha_tiles
  by_cases h1 : buffers.fills.length % MAX_FILLS_PER_BATCH ≠ 0 <;>
    by_cases h2 : buffers.alpha_tiles = [] <;> simp [h1, h2]

/-- The buffers `pack_alpha_tiles` leaves behind. -/
theorem pack_buffers_eq (E : Externals) (n : Nat) (buffers : SharedBuffers) :
    (pack_alpha_tiles E n buffers).2 =
      { buffers with
        fills := if buffers.fills.length % MAX_FILLS_PER_BATCH ≠ 0 then []
          else buffers.fills,
        alpha_tiles := if buffers.alpha_tiles.isEmpty then buffers.alpha_tiles else [] } := by
  unfold pack_alpha_tiles
  by_cases h1 : buffers.fills.length % MAX_FILLS_PER_BATCH ≠ 0 <;>
    by_cases h2 : buffers.alpha_tiles = [] <;> simp [h1, h2]

/-- The fill batches the packing step emits. -/
theorem fillBatches_pack (E : Externals) (n : Nat) (buffers : SharedBuffers) :
    fillBatches (pack_alpha_tiles E n buffers).1 =
      if buffers.fills.length % MAX_FILLS_PER_BATCH ≠ 0 then
        [range_to_vec buffers.fills
          (buffers.fills.length &&& u32_not (MAX_FILLS_PER_BATCH - 1)) buffers.fills.length]
      else [] := by
  rw [pack_commands_eq]
  by_cases h1 : buffers.fills.length % MAX_FILLS_PER_BATCH ≠ 0 <;>
    by_cases h2 : (E.build_solid_tiles (zOf buffers.z_writes) n).isEmpty <;>
    by_cases h3 : buffers.alpha_tiles = [] <;>
    simp [fillBatches, h1, h2, h3]

/-- The solid-tile batches the packing step emits. -/
theorem solidBatches_pack (E : Externals) (n : Nat) (buffers : SharedBuffers) :
    solidBatches (pack_alpha_tiles E n buffers).1 =
      if (E.build_solid_tiles (zOf buffers.z_writes) n).isEmpty then []
      else [E.build_solid_tiles (zOf buffers.z_writes) n] := by
  rw [pack_commands_eq]
  by_cases h1 : buffers.fills.length % MAX_FILLS_PER_BATCH ≠ 0 <;>
    by_cases h2 : (E.build_solid_tiles (zOf buffers.z_writes) n).isEmpty <;>
    by_cases h3 : buffers.alpha_tiles = [] <;>
    simp [solidBatches, h1, h2, h3]

/-- The alpha-tile batches the packing step emits. -/
theorem alphaBatches_pack (E : Externals) (n : Nat) (buffers : SharedBuffers) :
    alphaBatches (pack_alpha_tiles E n buffers).1 =
      if buffers.alpha_tiles = [] then [] else [E.sortAlpha buffers.alpha_tiles] := by
  rw [pack_commands_eq]
  by_cases h1 : buffers.fills.length % MAX_FILLS_PER_BATCH ≠ 0 <;>
    by_cases h2 : (E.build_solid_tiles (zOf buffers.z_writes) n).isEmpty <;>
    by_cases h3 : buffers.alpha_tiles = [] <;>
    simp [alphaBatches, h1, h2, h3]

/-- The packing step emits no clear-mask command. -/
theorem countClear_pack (E : Externals) (n : Nat) (buffers : SharedBuffers) :
    countClear (pack_alpha_tiles E n buffers).1 = 0 := by
  rw [pack_commands_eq]
  by_cases h1 : buffers.fills.length % MAX_FILLS_PER_BATCH ≠ 0 <;>
    by_cases h2 : (E.build_solid_tiles (zOf buffers.z_writes) n).isEmpty <;>
    by_cases h3 : buffers.alpha_tiles = [] <;>
    simp [countClear, isClearCmd, h1, h2, h3]

/-- The packing step's commands always have the fixed shape: at most one
fill command, then at most one solid-tile command, then at most one
alpha-tile command. -/
theorem packShape_pack (E : Externals) (n : Nat) (buffers : SharedBuffers) :
    packShape (pack_alpha_tiles E n buffers).1 = true := by
  rw [pack_commands_eq]
  by_cases h1 : buffers.fills.length % MAX_FILLS_PER_BATCH ≠ 0 <;>
    by_cases h2 : (E.build_solid_tiles (zOf buffers.z_writes) n).isEmpty <;>
    by_cases h3 : buffers.alpha_tiles = [] <;>
    simp [packShape, consumeOne, isFillCmd, isSolidCmd, isAlphaCmd, h1, h2, h3]

/-! ## The claims -/

/-- C1 (amended): for every packing step run with any conforming
implementation of the unstable sort, on a non-empty alpha-tile buffer
exactly one alpha-tile-batch command is emitted, its sequence is a
permutation of the buffer's contents sorted by object index ascending, and
the buffer is cleared afterwards. (Stability over equal object indices is
not guaranteed: the source sorts with `sort_unstable_by`, see the
counterexample.) -/
theorem c1_alpha_batch (E : Externals) (n : Nat) (buffers : SharedBuffers)
    (hE : SortUnstableSpec E.sortAlpha) (h : buffers.alpha_tiles ≠ []) :
    alphaBatches (pack_alpha_tiles E n buffers).1 = [E.sortAlpha buffers.alpha_tiles] ∧
    (E.sortAlpha buffers.alpha_tiles).Perm buffers.alpha_tiles ∧
    (E.sortAlpha buffers.alpha_tiles).Sorted RIdx ∧
    (pack_alpha_tiles E n buffers).2.alpha_tiles = [] := by
  refine ⟨?_, (hE buffers.alpha_tiles).1, (hE buffers.alpha_tiles).2, ?_⟩
  · rw [alphaBatches_pack]
    simp [h]
  · rw [pack_buffers_eq]
    simp [h]

/-- Witness for C1: the packing step at a concrete two-record buffer. -/
theorem c1_witness :
    alphaBatches (pack_alpha_tiles E0 1 ⟨[], [tPayload1, tPayload0], []⟩).1
        = [E0.sortAlpha [tPayload1, tPayload0]] ∧
    (E0.sortAlpha [tPayload1, tPayload0]).Perm [tPayload1, tPayload0] ∧
    (E0.sortAlpha [tPayload1, tPayload0]).Sorted RIdx ∧
    (pack_alpha_tiles E0 1 ⟨[], [tPayload1, tPayload0], []⟩).2.alpha_tiles = [] :=
  c1_alpha_batch E0 1 ⟨[], [tPayload1, tPayload0], []⟩ sortByObjectIndex_spec (by decide)

/-- Counterexample to C1 as stated: the anti-stable sort conforms to
`sort_unstable_by`'s contract, yet on a buffer holding two records of equal
object index (in payload order 0, 1) the emitted batch reverses them —
the emitted sequence is not the buffer stable-sorted (which, both records
having equal index, is the buffer itself). -/
theorem c1_counterexample :
    SortUnstableSpec E1.sortAlpha ∧
    alphaBatches (pack_alpha_tiles E1 1 ⟨[], [tPayload0, tPayload1], []⟩).1
        = [[tPayload1, tPayload0]] ∧
    sortByObjectIndex [tPayload0, tPayload1] = [tPayload0, tPayload1] ∧
    ([tPayload1, tPayload0] : List AlphaTileBatchPrimitive) ≠ [tPayload0, tPayload1] := by
  refine ⟨antiSortByObjectIndex_spec, by decide, by decide, by decide⟩

/-- C3: fill packing. With `N` buffered fills (a `u32` count): when `N` is
not a multiple of `MAX_FILLS_PER_BATCH`, exactly one fill command is
emitted, holding the fills from index `N & !(MAX_FILLS_PER_BATCH - 1)` —
which equals `N - N % MAX_FILLS_PER_BATCH`, the largest batch-aligned
offset not exceeding `N` — up to `N`, i.e. exactly `N mod
MAX_FILLS_PER_BATCH` fills, and the fill buffer is cleared; when `N` is a
multiple, no fill command is emitted. -/
theorem c3_fill_remainder (E : Externals) (n : Nat) (buffers : SharedBuffers)
    (hlen : buffers.fills.length < 2 ^ 32) :
    (buffers.fills.length % MAX_FILLS_PER_BATCH ≠ 0 →
      fillBatches (pack_alpha_tiles E n buffers).1
          = [buffers.fills.drop
              (buffers.fills.length - buffers.fills.length % MAX_FILLS_PER_BATCH)] ∧
      (buffers.fills.length &&& u32_not (MAX_FILLS_PER_BATCH - 1))
          = buffers.fills.length - buffers.fills.length % MAX_FILLS_PER_BATCH ∧
      (buffers.fills.drop
          (buffers.fills.length - buffers.fills.length % MAX_FILLS_PER_BATCH)).length
          = buffers.fills.length % MAX_FILLS_PER_BATCH ∧
      (pack_alpha_tiles E n buffers).2.fills = []) ∧
    (buffers.fills.length % MAX_FILLS_PER_BATCH = 0 →
      fillBatches (pack_alpha_tiles E n buffers).1 = []) := by
  have hstart := fill_start_eq buffers.fills.length hlen
  have hmod : buffers.fills.length % MAX_FILLS_PER_BATCH ≤ buffers.fills.length :=
    Nat.mod_le _ _
  constructor
  · intro hne
    have hpay : range_to_vec buffers.fills
        (buffers.fills.length &&& u32_not (MAX_FILLS_PER_BATCH - 1)) buffers.fills.length
        = buffers.fills.drop
            (buffers.fills.length - buffers.fills.length % MAX_FILLS_PER_BATCH) := by
      rw [hstart]
      unfold range_to_vec
      have hdlen : (buffers.fills.drop
          (buffers.fills.length - buffers.fills.length % MAX_FILLS_PER_BATCH)).length
          = buffers.fills.length
            - (buffers.fills.length - buffers.fills.length % MAX_FILLS_PER_BATCH) :=
        List.length_drop _ _
      rw [show buffers.fills.length
            - (buffers.fills.length - buffers.fills.length % MAX_FILLS_PER_BATCH)
          = (buffers.fills.drop
              (buffers.fills.length
                - buffers.fills.length % MAX_FILLS_PER_BATCH)).length from hdlen.symm]
      exact List.take_length _
    refine ⟨?_, hstart, ?_, ?_⟩
    · rw [fillBatches_pack]
      simp [hne, hpay]
    · rw [List.length_drop]
      omega
    · rw [pack_buffers_eq]
      simp [hne]
  · intro hz
    rw [fillBatches_pack]
    simp [hz]

/-- Witness for C3: packing five buffered fills (5 is not a multiple of
4096) emits the single fill command `[0,1,2,3,4]` and clears the buffer. -/
theorem c3_witness :
    ((5 : Nat) % MAX_FILLS_PER_BATCH ≠ 0 →
      fillBatches (pack_alpha_tiles E0 1 ⟨[0, 1, 2, 3, 4], [], []⟩).1
          = [([0, 1, 2, 3, 4] : List FillBatchPrimitive).drop (5 - 5 % MAX_FILLS_PER_BATCH)] ∧
      ((5 : Nat) &&& u32_not (MAX_FILLS_PER_BATCH - 1)) = 5 - 5 % MAX_FILLS_PER_BATCH ∧
      (([0, 1, 2, 3, 4] : List FillBatchPrimitive).drop (5 - 5 % MAX_FILLS_PER_BATCH)).length
          = 5 % MAX_FILLS_PER_BATCH ∧
      (pack_alpha_tiles E0 1 ⟨[0, 1, 2, 3, 4], [], []⟩).2.fills = []) ∧
    ((5 : Nat) % MAX_FILLS_PER_BATCH = 0 →
      fillBatches (pack_alpha_tiles E0 1 ⟨[0, 1, 2, 3, 4], [], []⟩).1 = []) :=
  c3_fill_remainder E0 1 ⟨[0, 1, 2, 3, 4], [], []⟩ (by decide)

/-- C4: culling is an in-place, length-preserving pass — each record whose
z-buffer test passes is kept unchanged, each other record has exactly its
three coordinate fields overwritten with `0xff` while `object_index` and
every other field survive; no record is removed. -/
theorem c4_cull_in_place (E : Externals) (buffers : SharedBuffers) :
    (cull_alpha_tiles E buffers).alpha_tiles
        = buffers.alpha_tiles.map (fun t =>
            if zTest (zOf buffers.z_writes) (E.tile_coords t) t.object_index then t
            else { t with tile_x_lo := 0xff, tile_y_lo := 0xff, tile_hi := 0xff }) ∧
    (cull_alpha_tiles E buffers).alpha_tiles.length = buffers.alpha_tiles.length ∧
    (cull_alpha_tiles E buffers).alpha_tiles.map (fun t => (t.object_index, t.payload))
        = buffers.alpha_tiles.map (fun t => (t.object_index, t.payload)) ∧
    (cull_alpha_tiles E buffers).fills = buffers.fills ∧
    (cull_alpha_tiles E buffers).z_writes = buffers.z_writes := by
  have hmap : (cull_alpha_tiles E buffers).alpha_tiles
      = buffers.alpha_tiles.map
          (cullStep (zTest (zOf buffers.z_writes)) E.tile_coords) :=
    cullLoop_eq_map _ _ _
  refine ⟨hmap, ?_, ?_, rfl, rfl⟩
  · rw [hmap, List.length_map]
  · rw [hmap, List.map_map]
    apply List.map_congr_left
    intro t _
    simp only [Function.comp, cullStep, cullSentinel]
    by_cases h : zTest (zOf buffers.z_writes) (E.tile_coords t) t.object_index <;> simp [h]

/-- Everything a Tiler sends mid-build is a fill command. -/
theorem mem_tiler_cmds_isFill {scene : List ObjectWork} {c : RenderCommand}
    (h : c ∈ (scene.map (fun w => w.cmds.map RenderCommand.Fill)).flatten) :
    isFillCmd c = true := by
  rw [List.mem_flatten] at h
  obtain ⟨l, hl, hc⟩ := h
  rw [List.mem_map] at hl
  obtain ⟨w, _, rfl⟩ := hl
  rw [List.mem_map] at hc
  obtain ⟨fs, _, rfl⟩ := hc
  rfl

theorem seq_cmds_isFill (scene : List ObjectWork) :
    ∀ c ∈ ((seqRuns scene).map TilerRun.emitted).flatten, isFillCmd c = true := by
  intro c hc
  rw [seqRuns_emitted] at hc
  exact mem_tiler_cmds_isFill hc

theorem par_cmds_isFill {scene : List ObjectWork} (s : Schedule scene) :
    ∀ c ∈ s.parCmds, isFillCmd c = true := by
  intro c hc
  exact mem_tiler_cmds_isFill ((interleave_perm s.cmds_ok).mem_iff.mp hc)

/-- A stream of fill commands holds no clear, solid or alpha command. -/
theorem countClear_fills {l : List RenderCommand} (h : ∀ c ∈ l, isFillCmd c = true) :
    countClear l = 0 := by
  unfold countClear
  rw [List.countP_eq_zero]
  intro c hc
  have hcf := h c hc
  cases c <;> simp_all [isFillCmd, isClearCmd]

theorem solidBatches_fills {l : List RenderCommand} (h : ∀ c ∈ l, isFillCmd c = true) :
    solidBatches l = [] := by
  unfold solidBatches
  rw [List.filterMap_eq_nil_iff]
  intro c hc
  have hcf := h c hc
  cases c <;> simp_all [isFillCmd]

theorem alphaBatches_fills {l : List RenderCommand} (h : ∀ c ∈ l, isFillCmd c = true) :
    alphaBatches l = [] := by
  unfold alphaBatches
  rw [List.filterMap_eq_nil_iff]
  intro c hc
  have hcf := h c hc
  cases c <;> simp_all [isFillCmd]

/-- The solid batches of a full build stream are those of its packing part. -/
theorem solidBatches_stream (tcmds pcmds : List RenderCommand)
    (h : ∀ c ∈ tcmds, isFillCmd c = true) :
    solidBatches (RenderCommand.ClearMaskFramebuffer :: tcmds ++ pcmds)
      = solidBatches pcmds := by
  have ht := solidBatches_fills h
  unfold solidBatches at ht ⊢
  simp [List.filterMap_append, ht]

/-- The alpha batches of a full build stream are those of its packing part. -/
theorem alphaBatches_stream (tcmds pcmds : List RenderCommand)
    (h : ∀ c ∈ tcmds, isFillCmd c = true) :
    alphaBatches (RenderCommand.ClearMaskFramebuffer :: tcmds ++ pcmds)
      = alphaBatches pcmds := by
  have ht := alphaBatches_fills h
  unfold alphaBatches at ht ⊢
  simp [List.filterMap_append, ht]

/-- The sequential stream, decomposed. -/
theorem build_sequentially_stream (E : Externals) (scene : List ObjectWork) :
    (build_sequentially E scene).1 =
      RenderCommand.ClearMaskFramebuffer ::
        ((seqRuns scene).map TilerRun.emitted).flatten
        ++ (finishBuild E scene.length (seqBuffers scene)).1 := rfl

/-- The parallel stream, decomposed. -/
theorem build_in_parallel_stream (E : Externals) (scene : List ObjectWork) (s : Schedule scene) :
    (build_in_parallel E scene s).1 =
      RenderCommand.ClearMaskFramebuffer ::
        s.parCmds ++ (finishBuild E scene.length ⟨s.parFills, s.parAlphas, s.parZ⟩).1 := rfl

/-- C2: in both build modes the first command is clear-mask-framebuffer,
sent exactly once per build, and the packing step's commands have the fixed
shape: at most one trailing fill-batch command, then at most one
solid-tile-batch command, then at most one alpha-tile-batch command. -/
theorem c2_stream_shape (E : Externals) (scene : List ObjectWork) :
    ((build_sequentially E scene).1.head? = some RenderCommand.ClearMaskFramebuffer ∧
      countClear (build_sequentially E scene).1 = 1 ∧
      (build_sequentially E scene).1
        = RenderCommand.ClearMaskFramebuffer ::
            ((seqRuns scene).map TilerRun.emitted).flatten
            ++ (finishBuild E scene.length (seqBuffers scene)).1 ∧
      packShape (finishBuild E scene.length (seqBuffers scene)).1 = true) ∧
    (∀ s : Schedule scene,
      (build_in_parallel E scene s).1.head? = some RenderCommand.ClearMaskFramebuffer ∧
      countClear (build_in_parallel E scene s).1 = 1 ∧
      (build_in_parallel E scene s).1
        = RenderCommand.ClearMaskFramebuffer ::
            s.parCmds ++ (finishBuild E scene.length ⟨s.parFills, s.parAlphas, s.parZ⟩).1 ∧
      packShape (finishBuild E scene.length ⟨s.parFills, s.parAlphas, s.parZ⟩).1 = true) := by
  constructor
  · refine ⟨rfl, ?_, build_sequentially_stream E scene, packShape_pack E scene.length _⟩
    rw [build_sequentially_stream]
    have ht := countClear_fills (seq_cmds_isFill scene)
    have hp := countClear_pack E scene.length (cull_alpha_tiles E (seqBuffers scene))
    unfold countClear at ht hp ⊢
    unfold finishBuild
    rw [List.countP_append, List.countP_cons, ht, hp]
    simp [isClearCmd]
  · intro s
    refine ⟨rfl, ?_, build_in_parallel_stream E scene s, packShape_pack E scene.length _⟩
    rw [build_in_parallel_stream]
    have ht := countClear_fills (par_cmds_isFill s)
    have hp := countClear_pack E scene.length
      (cull_alpha_tiles E ⟨s.parFills, s.parAlphas, s.parZ⟩)
    unfold countClear at ht hp ⊢
    unfold finishBuild
    rw [List.countP_append, List.countP_cons, ht, hp]
    simp [isClearCmd]

/-- C9: `build_object` hands the Tiler the object index narrowed to a
16-bit identifier — the index modulo `2^16`; the build loop processes every
index without any bounds check (one run per scene object, however many),
so any index of `65536` or above yields the identifier of the earlier index
`i - 65536` — a silent collision. -/
theorem c9_object_id_narrowing (scene : List ObjectWork) :
    (∀ i, (build_object i scene).object_id = i % 2 ^ 16) ∧
    (seqRuns scene).length = scene.length ∧
    (∀ i, 2 ^ 16 ≤ i →
      (build_object i scene).object_id = (build_object (i - 2 ^ 16) scene).object_id
        ∧ i - 2 ^ 16 < i) := by
  refine ⟨fun i => rfl, by simp [seqRuns], ?_⟩
  intro i hi
  have h16 : (2 : Nat) ^ 16 = 65536 := by norm_num
  rw [h16] at hi
  constructor
  · show i % 2 ^ 16 = (i - 2 ^ 16) % 2 ^ 16
    rw [h16]
    omega
  · rw [h16]
    omega

/-- The culled alpha-tile container, written over the schedule's buffers,
with the z-buffer test expressed through the (order-independent) sequential
z state. -/
theorem cull_par_alphas (E : Externals) (scene : List ObjectWork) (s : Schedule scene) :
    (cull_alpha_tiles E ⟨s.parFills, s.parAlphas, s.parZ⟩).alpha_tiles
      = s.parAlphas.map
          (cullStep (zTest (zOf (seqBuffers scene).z_writes)) E.tile_coords) := by
  have hz : zOf s.parZ = zOf (seqBuffers scene).z_writes := by
    rw [seqBuffers_eq]
    exact zOf_perm (interleave_perm s.z_ok)
  have h := cullLoop_eq_map (zTest (zOf s.parZ)) E.tile_coords s.parAlphas
  rw [show (cull_alpha_tiles E ⟨s.parFills, s.parAlphas, s.parZ⟩).alpha_tiles
      = cullLoop (zTest (zOf s.parZ)) E.tile_coords s.parAlphas from rfl, h, hz]

theorem cull_seq_alphas (E : Externals) (scene : List ObjectWork) :
    (cull_alpha_tiles E (seqBuffers scene)).alpha_tiles
      = (seqBuffers scene).alpha_tiles.map
          (cullStep (zTest (zOf (seqBuffers scene).z_writes)) E.tile_coords) :=
  cullLoop_eq_map _ _ _

/-- C5 (amended): given the same scene and prepared options, the parallel
and sequential builds agree as follows, for every parallel schedule: the
solid-tile batches of the two streams are identical (the z-buffer is
order-independent); the alpha-tile batches are permutations of one another
and each is sorted by object index ascending; and, provided the buffered
fill count does not exceed MAX_FILLS_PER_BATCH, the trailing fill batches
the packing step emits are permutations of one another. (Identity of the
full streams — in particular byte-identical trailing fill batches — does
not hold: parallel workers interleave their fill appends, see the
counterexample.) -/
theorem c5_mode_agreement (E : Externals) (scene : List ObjectWork) (s : Schedule scene)
    (hE : SortUnstableSpec E.sortAlpha) :
    solidBatches (build_in_parallel E scene s).1
        = solidBatches (build_sequentially E scene).1 ∧
    List.Forall₂ (fun a b => a.Perm b ∧ a.Sorted RIdx ∧ b.Sorted RIdx)
      (alphaBatches (build_in_parallel E scene s).1)
      (alphaBatches (build_sequentially E scene).1) ∧
    ((scene.map ObjectWork.fills).flatten.length ≤ MAX_FILLS_PER_BATCH →
      List.Forall₂ List.Perm
        (fillBatches (finishBuild E scene.length ⟨s.parFills, s.parAlphas, s.parZ⟩).1)
        (fillBatches (finishBuild E scene.length (seqBuffers scene)).1)) ∧
    (build_in_parallel E scene s).1
      = RenderCommand.ClearMaskFramebuffer ::
          s.parCmds ++ (finishBuild E scene.length ⟨s.parFills, s.parAlphas, s.parZ⟩).1 ∧
    (build_sequentially E scene).1
      = RenderCommand.ClearMaskFramebuffer ::
          ((seqRuns scene).map TilerRun.emitted).flatten
          ++ (finishBuild E scene.length (seqBuffers scene)).1 := by
  have hfp : s.parFills.Perm (seqBuffers scene).fills :=
    (interleave_perm s.fills_ok).trans (List.Perm.of_eq (by rw [seqBuffers_eq]))
  have hap : s.parAlphas.Perm (seqBuffers scene).alpha_tiles :=
    (interleave_perm s.alphas_ok).trans (List.Perm.of_eq (by rw [seqBuffers_eq]))
  have hz : zOf s.parZ = zOf (seqBuffers scene).z_writes := by
    rw [seqBuffers_eq]
    exact zOf_perm (interleave_perm s.z_ok)
  have hculled : (cull_alpha_tiles E ⟨s.parFills, s.parAlphas, s.parZ⟩).alpha_tiles.Perm
      (cull_alpha_tiles E (seqBuffers scene)).alpha_tiles := by
    rw [cull_par_alphas E scene s, cull_seq_alphas E scene]
    exact hap.map _
  refine ⟨?_, ?_, ?_, build_in_parallel_stream E scene s, build_sequentially_stream E scene⟩
  · rw [build_in_parallel_stream, build_sequentially_stream,
      solidBatches_stream _ _ (par_cmds_isFill s),
      solidBatches_stream _ _ (seq_cmds_isFill scene)]
    unfold finishBuild
    rw [solidBatches_pack, solidBatches_pack]
    rw [show (cull_alpha_tiles E ⟨s.parFills, s.parAlphas, s.parZ⟩).z_writes = s.parZ from rfl,
      show (cull_alpha_tiles E (seqBuffers scene)).z_writes
        = (seqBuffers scene).z_writes from rfl, hz]
  · rw [build_in_parallel_stream, build_sequentially_stream,
      alphaBatches_stream _ _ (par_cmds_isFill s),
      alphaBatches_stream _ _ (seq_cmds_isFill scene)]
    unfold finishBuild
    rw [alphaBatches_pack, alphaBatches_pack]
    by_cases hempty : (cull_alpha_tiles E ⟨s.parFills, s.parAlphas, s.parZ⟩).alpha_tiles = []
    · have hempty2 : (cull_alpha_tiles E (seqBuffers scene)).alpha_tiles = [] := by
        have := hculled.length_eq
        rw [hempty] at this
        exact List.length_eq_zero.mp this.symm
      simp [hempty, hempty2]
    · have hempty2 : (cull_alpha_tiles E (seqBuffers scene)).alpha_tiles ≠ [] := by
        intro h0
        have := hculled.length_eq
        rw [h0] at this
        exact hempty (List.length_eq_zero.mp this)
      rw [if_neg hempty, if_neg hempty2]
      refine List.Forall₂.cons ⟨?_, (hE _).2, (hE _).2⟩ List.Forall₂.nil
      exact (hE _).1.trans (hculled.trans (hE _).1.symm)
  · intro hN
    unfold finishBuild
    rw [fillBatches_pack, fillBatches_pack]
    rw [show (cull_alpha_tiles E ⟨s.parFills, s.parAlphas, s.parZ⟩).fills = s.parFills from rfl,
      show (cull_alpha_tiles E (seqBuffers scene)).fills = (seqBuffers scene).fills from rfl]
    have hlen : s.parFills.length = (seqBuffers scene).fills.length := hfp.length_eq
    have hNs : (seqBuffers scene).fills.length ≤ MAX_FILLS_PER_BATCH := by
      rw [seqBuffers_eq]
      exact hN
    by_cases hc : (seqBuffers scene).fills.length % MAX_FILLS_PER_BATCH ≠ 0
    · have hlt : (seqBuffers scene).fills.length < MAX_FILLS_PER_BATCH := by
        rcases Nat.lt_or_ge (seqBuffers scene).fills.length MAX_FILLS_PER_BATCH with h | h
        · exact h
        · exfalso
          have : (seqBuffers scene).fills.length = MAX_FILLS_PER_BATCH := le_antisymm hNs h
          rw [this] at hc
          simp at hc
      have hfull : ∀ (l : List FillBatchPrimitive), l.length < MAX_FILLS_PER_BATCH →
          range_to_vec l (l.length &&& u32_not (MAX_FILLS_PER_BATCH - 1)) l.length = l := by
        intro l hl
        have hlt32 : l.length < 2 ^ 32 := by
          have : MAX_FILLS_PER_BATCH < 2 ^ 32 := by norm_num [MAX_FILLS_PER_BATCH]
          omega
        have hs := fill_start_eq l.length hlt32
        have hm : l.length % MAX_FILLS_PER_BATCH = l.length := Nat.mod_eq_of_lt hl
        rw [hs, hm]
        unfold range_to_vec
        simp
      rw [hfull s.parFills (by omega), hfull (seqBuffers scene).fills hlt, hlen,
        if_pos hc, if_pos hc]
      exact List.Forall₂.cons hfp List.Forall₂.nil
    · rw [hlen, if_neg hc, if_neg hc]
      exact List.Forall₂.nil

/-- Witness for C5 at the concrete two-object scene and the in-order
schedule: the trailing fill batches agree up to permutation. -/
theorem c5_witness :
    List.Forall₂ List.Perm
      (fillBatches (finishBuild E0 scene0.length
        ⟨schedule01.parFills, schedule01.parAlphas, schedule01.parZ⟩).1)
      (fillBatches (finishBuild E0 scene0.length (seqBuffers scene0)).1) :=
  (c5_mode_agreement E0 scene0 schedule01 sortByObjectIndex_spec).2.2.1 (by decide)

/-- Counterexample to C5 as stated: on a two-object scene contributing one
fill each, the parallel schedule that finishes object 1 first produces the
stream `[clear, fill [1, 0]]` where the sequential build produces
`[clear, fill [0, 1]]`. Neither stream holds an alpha-tile batch, so
sorting alpha-tile batches leaves both unchanged — the streams differ even
modulo that sort, and the trailing fill batch is not identical across
modes. -/
theorem c5_counterexample :
    (build_sequentially E0 scene0).1
        = [RenderCommand.ClearMaskFramebuffer, RenderCommand.Fill [0, 1]] ∧
    (build_in_parallel E0 scene0 schedule10).1
        = [RenderCommand.ClearMaskFramebuffer, RenderCommand.Fill [1, 0]] ∧
    sortAlphaBatchesInStream (build_sequentially E0 scene0).1
        ≠ sortAlphaBatchesInStream (build_in_parallel E0 scene0 schedule10).1 ∧
    fillBatches (build_sequentially E0 scene0).1
        ≠ fillBatches (build_in_parallel E0 scene0 schedule10).1 := by
  refine ⟨by decide, by decide, by decide, by decide⟩

/-- C6: on the 2D path, `prepare` returns the `None` variant exactly for
the identity matrix and otherwise wraps the matrix unchanged; no prepared
transform ever wraps the identity in the `Transform2D` variant; and the 2D
path never consults the clipper or the inverse (the result is the same for
every geometry instantiation — no clipping is performed). -/
theorem c6_prepare_2d (G : GeomExternals) (t : Transform2DF32) (bounds : RectF32) :
    (t = Transform2DF32.identity →
      RenderTransform.prepare G (RenderTransform.Transform2D t) bounds
        = PreparedRenderTransform.None) ∧
    (t ≠ Transform2DF32.identity →
      RenderTransform.prepare G (RenderTransform.Transform2D t) bounds
        = PreparedRenderTransform.Transform2D t) ∧
    (∀ rt m, RenderTransform.prepare G rt bounds = PreparedRenderTransform.Transform2D m →
      m ≠ Transform2DF32.identity) ∧
    (∀ G' : GeomExternals,
      RenderTransform.prepare G (RenderTransform.Transform2D t) bounds
        = RenderTransform.prepare G' (RenderTransform.Transform2D t) bounds) := by
  refine ⟨?_, ?_, ?_, ?_⟩
  · intro h
    simp [RenderTransform.prepare, Transform2DF32.is_identity, h]
  · intro h
    simp [RenderTransform.prepare, Transform2DF32.is_identity, h]
  · intro rt m hm
    cases rt with
    | Transform2D t' =>
      by_cases h : t' = Transform2DF32.identity
      · simp [RenderTransform.prepare, Transform2DF32.is_identity, h] at hm
      · simp [RenderTransform.prepare, Transform2DF32.is_identity, h] at hm
        rw [← hm]
        exact h
    | Perspective p =>
      simp [RenderTransform.prepare] at hm
  · intro G'
    by_cases h : t = Transform2DF32.identity <;>
      simp [RenderTransform.prepare, Transform2DF32.is_identity, h]

/-- C7: the quad of a prepared perspective transform is exactly the four
corners of the bounding rectangle in the order origin, upper-right,
lower-right, lower-left, lifted to 3D, transformed by the perspective
matrix and perspective-divided — independent of the clipper and the
inverse, i.e. with no clipping applied to these four points. -/
theorem c7_perspective_quad (G : GeomExternals) (p : Perspective) (bounds : RectF32)
    (dil : Point2DF32) (bd : Option BarrelDistortionCoefficients) (aa : Bool) :
    (PreparedRenderOptions.mk
        (RenderTransform.prepare G (RenderTransform.Perspective p) bounds) dil bd aa).quad
      = [bounds.origin.to_3d, bounds.upper_right.to_3d, bounds.lower_right.to_3d,
          bounds.lower_left.to_3d].map
          (fun corner => (p.transform.transform_point corner).perspective_divide) ∧
    (∀ G' : GeomExternals,
      (PreparedRenderOptions.mk
          (RenderTransform.prepare G (RenderTransform.Perspective p) bounds) dil bd aa).quad
        = (PreparedRenderOptions.mk
            (RenderTransform.prepare G' (RenderTransform.Perspective p) bounds)
            dil bd aa).quad) := by
  constructor
  · simp [RenderTransform.prepare, PreparedRenderOptions.quad, List.map_map]
  · intro G'
    simp [RenderTransform.prepare, PreparedRenderOptions.quad]

/-- C8: the clip polygon of a prepared perspective transform has exactly
one 2D vertex per vertex the 3D clipper returned on the transformed
(undivided) corners, each obtained by perspective-dividing the clipped
vertex, applying the inverse transform, perspective-dividing again and
dropping to 2D; when the clipper returns no vertices, the clip polygon is
empty — and `prepare` still returns a well-formed `Perspective` variant
(no error). -/
theorem c8_clip_polygon (G : GeomExternals) (p : Perspective) (bounds : RectF32) :
    RenderTransform.prepare G (RenderTransform.Perspective p) bounds
      = PreparedRenderTransform.Perspective p
          ((G.clip ([bounds.origin.to_3d, bounds.upper_right.to_3d, bounds.lower_right.to_3d,
              bounds.lower_left.to_3d].map p.transform.transform_point)).map
            (fun v => (((G.inverse p.transform).transform_point
                v.perspective_divide).perspective_divide).to_2d))
          ([bounds.origin.to_3d, bounds.upper_right.to_3d, bounds.lower_right.to_3d,
              bounds.lower_left.to_3d].map
            (fun corner => (p.transform.transform_point corner).perspective_divide)) ∧
    (RenderTransform.prepare G (RenderTransform.Perspective p) bounds).clipPolygonOf.length
      = (G.clip ([bounds.origin.to_3d, bounds.upper_right.to_3d, bounds.lower_right.to_3d,
          bounds.lower_left.to_3d].map p.transform.transform_point)).length ∧
    (G.clip ([bounds.origin.to_3d, bounds.upper_right.to_3d, bounds.lower_right.to_3d,
          bounds.lower_left.to_3d].map p.transform.transform_point) = [] →
      (RenderTransform.prepare G
          (RenderTransform.Perspective p) bounds).clipPolygonOf = []) := by
  refine ⟨?_, ?_, ?_⟩
  · simp [RenderTransform.prepare, List.map_map]
  · simp [RenderTransform.prepare, PreparedRenderTransform.clipPolygonOf, List.map_map]
  · intro h
    simp only [List.map_cons, List.map_nil] at h
    simp [RenderTransform.prepare, PreparedRenderTransform.clipPolygonOf, h]

/-- C10: `quad()` on prepared options whose transform is the `None` or
`Transform2D` variant returns four default all-zero 3D points, not any
projection of the scene bounds; only the `Perspective` variant returns the
stored quad. -/
theorem c10_quad_default (dil : Point2DF32) (bd : Option BarrelDistortionCoefficients)
    (aa : Bool) :
    (PreparedRenderOptions.mk PreparedRenderTransform.None dil bd aa).quad
        = List.replicate 4 (⟨0, 0, 0, 0⟩ : Point3DF32) ∧
    (∀ t, (PreparedRenderOptions.mk (PreparedRenderTransform.Transform2D t) dil bd aa).quad
        = List.replicate 4 (⟨0, 0, 0, 0⟩ : Point3DF32)) ∧
    (∀ p cp q,
      (PreparedRenderOptions.mk (PreparedRenderTransform.Perspective p cp q) dil bd aa).quad
        = q) := by
  exact ⟨rfl, fun t => rfl, fun p cp q => rfl⟩

end PathfinderBuilder
